import Mathlib

/-!
# Verification of the 0g-storage-node sync components

Shallow embedding of two subsystems of the repository:

* `TxStore` / `CachedTxStore` (node/sync/src/auto_sync/tx_store.rs): an
  enumerable persistent set of `u64` sequence numbers layered over a
  string-keyed config store, plus an in-memory random-eviction sample cache.
* `LogQuery` (node/log_entry_sync/src/sync_manager/log_query.rs): a
  pull-driven paginated log fetcher with page-size backoff on overflow
  errors.

The config store is modelled as an association list from `String` keys to
`Nat` values (first binding wins, as an overwrite-on-set map).  Arithmetic
on Rust `u64` values is modelled on `Nat` with explicit checks where the
Rust code could overflow and panic; fallible operations return `Option`.
-/

/-! ## Decimal rendering (Rust `format!("{}")` for unsigned ints) -/

/-- A decimal digit character, `0 ≤ d ≤ 9` maps to `'0'..'9'`. -/
def digitChar (d : Nat) : Char := Char.ofNat (48 + d)

/-- Worker for `decDigits`, structurally recursive on a fuel bound so that
it reduces in the kernel; `fuel > n` suffices. -/
def decDigitsAux : Nat → Nat → List Char
  | 0, _ => []
  | fuel + 1, n =>
    if n < 10 then [digitChar n]
    else decDigitsAux fuel (n / 10) ++ [digitChar (n % 10)]

/-- Decimal digits of `n`, most significant first; mirrors Rust `Display`
for unsigned integers. -/
def decDigits (n : Nat) : List Char := decDigitsAux (n + 1) n

/-- Decimal string of `n`. -/
def decRepr (n : Nat) : String := ⟨decDigits n⟩

/-- Reads a digit list back to a number (for the round-trip lemma). -/
def decVal (l : List Char) : Nat := l.foldl (fun acc c => 10 * acc + (c.toNat - 48)) 0

/-! ## Config store model

The underlying key/value engine is modelled as an association list where the
first binding for a key wins; `set` conses a binding, `remove` deletes all
bindings of the key. -/

abbrev Store := List (String × Nat)

def kvGet : Store → String → Option Nat
  | [], _ => none
  | (k, v) :: rest, key => if k = key then some v else kvGet rest key

def kvRemoveKey : Store → String → Store
  | [], _ => []
  | (k, v) :: rest, key =>
    if k = key then kvRemoveKey rest key else (k, v) :: kvRemoveKey rest key

/-- One write of a `ConfigTx` batch: `set_config` or `remove_config`. -/
inductive CfgOp where
  | setCfg (k : String) (v : Nat)
  | removeCfg (k : String)
deriving Repr, DecidableEq

/-- A `ConfigTx` batch: an ordered list of writes, applied atomically in
order by `exec_configs`. -/
abbrev ConfigTx := List CfgOp

def applyOp (st : Store) : CfgOp → Store
  | .setCfg k v => (k, v) :: st
  | .removeCfg k => kvRemoveKey st k

/-- `exec_configs`: apply a batch to the store, in order. -/
def applyTx (st : Store) (tx : ConfigTx) : Store := tx.foldl applyOp st

/-! ## TxStore (node/sync/src/auto_sync/tx_store.rs) -/

structure TxStore where
  name : String
  /-- DB key for the `count` value, fixed at construction. -/
  key_count : String
deriving Repr, DecidableEq

/-- `TxStore::new`: `key_count = format!("sync.manager.txs.{}.count", name)`. -/
def TxStore.new (name : String) : TxStore :=
  { name := name, key_count := "sync.manager.txs." ++ name ++ ".count" }

/-- `format!("sync.manager.txs.{}.seq2index.{}", self.name, tx_seq)`. -/
def TxStore.key_seq_to_index (t : TxStore) (tx_seq : Nat) : String :=
  "sync.manager.txs." ++ t.name ++ ".seq2index." ++ decRepr tx_seq

/-- `format!("sync.manager.txs.{}.index2seq.{}", self.name, index)`. -/
def TxStore.key_index_to_seq (t : TxStore) (index : Nat) : String :=
  "sync.manager.txs." ++ t.name ++ ".index2seq." ++ decRepr index

/-- `TxStore::index_of`: slot of `tx_seq`, `none` when absent. -/
def TxStore.index_of (t : TxStore) (st : Store) (tx_seq : Nat) : Option Nat :=
  kvGet st (t.key_seq_to_index tx_seq)

/-- `TxStore::at`: the sequence number stored at `index` (`at` in the
source; renamed because `at` is reserved in Lean). -/
def TxStore.atIndex (t : TxStore) (st : Store) (index : Nat) : Option Nat :=
  kvGet st (t.key_index_to_seq index)

/-- `TxStore::has`. -/
def TxStore.has (t : TxStore) (st : Store) (tx_seq : Nat) : Bool :=
  (t.index_of st tx_seq).isSome

/-- `TxStore::count`: absent key reads as `0`. -/
def TxStore.count (t : TxStore) (st : Store) : Nat :=
  (kvGet st t.key_count).getD 0

/-- `TxStore::add`.  Returns the (possibly updated) store, the (possibly
extended) external batch, and `true` iff `tx_seq` was newly inserted.
When `db_tx` is supplied the three writes are appended to it and the store
is left untouched; otherwise they are committed immediately. -/
def TxStore.add (t : TxStore) (st : Store) (db_tx : Option ConfigTx) (tx_seq : Nat) :
    Store × Option ConfigTx × Bool :=
  if t.has st tx_seq then (st, db_tx, false)
  else
    let count := t.count st
    let tx : ConfigTx :=
      [.setCfg (t.key_index_to_seq count) tx_seq,
       .setCfg (t.key_seq_to_index tx_seq) count,
       .setCfg t.key_count (count + 1)]
    match db_tx with
    | some db => (st, some (db ++ tx), true)
    | none => (applyTx st tx, none, true)

/-- `TxStore::remove` (swap-pop).  Returns `none` on the source's
`assert!(count > 0, "data corruption")` or
`.expect("data corruption")` panics. -/
def TxStore.remove (t : TxStore) (st : Store) (db_tx : Option ConfigTx) (tx_seq : Nat) :
    Option (Store × Option ConfigTx × Bool) :=
  match t.index_of st tx_seq with
  | none => some (st, db_tx, false)
  | some index =>
    let count := t.count st
    if count = 0 then none
    else
      let base : ConfigTx :=
        [.setCfg t.key_count (count - 1),
         .removeCfg (t.key_seq_to_index tx_seq)]
      if index = count - 1 then
        let tx := base ++ [.removeCfg (t.key_index_to_seq index)]
        match db_tx with
        | some db => some (st, some (db ++ tx), true)
        | none => some (applyTx st tx, none, true)
      else
        match t.atIndex st (count - 1) with
        | none => none
        | some last_tx =>
          let tx := base ++
            [.setCfg (t.key_index_to_seq index) last_tx,
             .removeCfg (t.key_index_to_seq (count - 1)),
             .setCfg (t.key_seq_to_index last_tx) index]
          match db_tx with
          | some db => some (st, some (db ++ tx), true)
          | none => some (applyTx st tx, none, true)

/-- Committed `add`/`remove` operations (the `db_tx = None` mode), for
reasoning about sequences of mutations. -/
inductive TxOp where
  | addOp (seq : Nat)
  | removeOp (seq : Nat)
deriving Repr, DecidableEq

/-- Run one committed mutation; `none` propagates a corruption panic. -/
def execTxOp (t : TxStore) (st : Store) : TxOp → Option Store
  | .addOp s => some (t.add st none s).1
  | .removeOp s => (t.remove st none s).map (·.1)

/-- Run a sequence of committed mutations from a starting store. -/
def execTxOps (t : TxStore) : List TxOp → Store → Option Store
  | [], st => some st
  | op :: rest, st =>
    match execTxOp t st op with
    | none => none
    | some st' => execTxOps t rest st'

/-- The structural invariants of the enumerable index, stated pointwise:
slots occupied are exactly `[0, count)`, and `seq2index` / `index2seq`
are mutually inverse. -/
def StoreInv (t : TxStore) (st : Store) : Prop :=
  (∀ i, (t.atIndex st i).isSome ↔ i < t.count st) ∧
  (∀ i s, t.atIndex st i = some s → t.index_of st s = some i) ∧
  (∀ s i, t.index_of st s = some i → t.atIndex st i = some s)

/-- The members enumerated through the slots, as a list. -/
def membersList (t : TxStore) (st : Store) : List Nat :=
  (List.range (t.count st)).filterMap (fun i => t.atIndex st i)

/-! ## CachedTxStore (node/sync/src/auto_sync/tx_store.rs) -/

/-- `IteratorRandom::choose` over the cache, modelled with an explicit
random seed `k`: `none` iff the cache is empty, otherwise uniform over the
elements when `k` is drawn uniformly. -/
def chooseRandom (l : List Nat) (k : Nat) : Option Nat :=
  if l.isEmpty then none else l[k % l.length]?

/-- `HashSet::insert` on the cache (set semantics; representation order is
the insertion-order list, newest first). -/
def cacheInsert (cache : List Nat) (tx_seq : Nat) : List Nat :=
  if tx_seq ∈ cache then cache else tx_seq :: cache

structure CachedTxStore where
  tx_store : TxStore
  cache_cap : Nat
deriving Repr, DecidableEq

def CachedTxStore.new (name : String) (cache_cap : Nat) : CachedTxStore :=
  { tx_store := TxStore.new name, cache_cap := cache_cap }

/-- `CachedTxStore::add`.  The in-memory cache (the `RwLock` contents) is
passed and returned explicitly; `k` is the random seed consumed by the
eviction `choose`. -/
def CachedTxStore.add (c : CachedTxStore) (st : Store) (cache : List Nat)
    (db_tx : Option ConfigTx) (tx_seq : Nat) (k : Nat) :
    Store × Option ConfigTx × List Nat × Bool :=
  if c.cache_cap = 0 then
    let r := c.tx_store.add st db_tx tx_seq
    (r.1, r.2.1, cache, r.2.2)
  else
    let r := c.tx_store.add st db_tx tx_seq
    let added := r.2.2
    if added then
      let cache1 := cacheInsert cache tx_seq
      if cache1.length > c.cache_cap then
        match chooseRandom cache1 k with
        | some popped => (r.1, r.2.1, cache1.erase popped, added)
        | none => (r.1, r.2.1, cache1, added)
      else (r.1, r.2.1, cache1, added)
    else (r.1, r.2.1, cache, added)

/-! ## LogQuery (node/log_entry_sync/src/sync_manager/log_query.rs) -/

/-- The two overflow hints of `TOO_MANY_LOGS_ERROR_MSG`. -/
def TOO_MANY_LOGS_ERROR_MSG : List String :=
  ["exceeds the max limit of", "too large with more than"]

/-- `pat` occurs at the head of `l`. -/
def listHasLead [DecidableEq α] : List α → List α → Bool
  | [], _ => true
  | _ :: _, [] => false
  | p :: ps, x :: xs => p = x && listHasLead ps xs

/-- `pat` occurs contiguously somewhere in `l` (Rust `str::contains`). -/
def listContainsSeq [DecidableEq α] (l pat : List α) : Bool :=
  match l with
  | [] => pat.isEmpty
  | _ :: xs => listHasLead pat l || listContainsSeq xs pat

/-- Rust `String::contains` on the display string of an error. -/
def strContains (s pat : String) : Bool := listContainsSeq s.data pat.data

/-- The source's classification loop: `err.to_string()` contains one of the
`TOO_MANY_LOGS_ERROR_MSG` hints. -/
def errIsTooManyLogs (e : String) : Bool :=
  TOO_MANY_LOGS_ERROR_MSG.any (fun msg => strContains e msg)

/-- 64-bit unsigned bound (ethers `U64`). -/
def U64LIMIT : Nat := 2 ^ 64

/-- `U64` addition; `none` models the overflow panic of `primitive-types`. -/
def u64add (a b : Nat) : Option Nat :=
  if a + b < U64LIMIT then some (a + b) else none

/-- `U64` subtraction; `none` models the underflow panic. -/
def u64sub (a b : Nat) : Option Nat :=
  if b ≤ a then some (a - b) else none

/-- `from_block + page_size - 1` with `U64` semantics (evaluated left to
right, as in the source). -/
def pageWindowEnd (fromBlock pageSize : Nat) : Option Nat :=
  (u64add fromBlock pageSize).bind (fun s => u64sub s 1)

/-- ethers `Filter`, restricted to the accessors the query uses.  Log
records are opaque; they are modelled as `Nat`. -/
structure LogFilter where
  fromBlock : Option Nat
  toBlock : Option Nat
deriving Repr, DecidableEq

/-- ethers `Filter::is_paginatable`: the from-block is set. -/
def LogFilter.is_paginatable (f : LogFilter) : Bool := f.fromBlock.isSome

/-- The pending tip future of `LoadLastBlock`: either the immediately-ready
`async { Ok(number) }` when `to_block` was set, an in-flight
`get_block_number` RPC, or a future already polled to completion (polling
it again panics). -/
inductive TipSlot where
  | pureVal (n : Nat)
  | awaitRpc
  | spent
deriving Repr, DecidableEq

/-- The pending `get_logs` future of `LoadLogs`. -/
inductive LogsSlot where
  | awaitRpc
  | spent
deriving Repr, DecidableEq

/-- `LogQueryState`. -/
inductive QState where
  | initial
  | loadLastBlock (slot : TipSlot)
  | loadLogs (resume : Option Nat) (slot : LogsSlot)
  | consume
deriving Repr, DecidableEq

structure LogQuery where
  filter : LogFilter
  from_block : Option Nat
  expected_page_size : Nat
  page_size : Nat
  current_logs : List Nat
  last_block : Option Nat
  state : QState
  delay : Nat
deriving Repr, DecidableEq

/-- `LogQuery::new`. -/
def LogQuery.new (f : LogFilter) (delay : Nat) : LogQuery :=
  { filter := f, from_block := f.fromBlock, expected_page_size := 10000,
    page_size := 10000, current_logs := [], last_block := none,
    state := .initial, delay := delay }

/-- `LogQuery::with_page_size`. -/
def LogQuery.with_page_size (q : LogQuery) (page_size : Nat) : LogQuery :=
  { q with page_size := page_size, expected_page_size := page_size }

/-- A provider response consumed by an in-flight RPC future. -/
inductive Resp where
  | blockNum (r : Except String Nat)
  | logs (r : Except String (List Nat))
deriving Repr

/-- An RPC request issued by the query (the narrowed filter's window for
`get_logs`). -/
inductive Req where
  | blockNumber
  | getLogs (fromB toB : Option Nat)
deriving Repr, DecidableEq

/-- An item the stream delivers to the consumer. -/
inductive PollItem where
  | log (l : Nat)
  | loadLastBlockError (e : String)
  | loadLogsError (e : String)
deriving Repr, DecidableEq

/-- The result of one `poll_next` call: `pending` covers the
rewake-and-return-`Poll::Pending` transitions; `ready none` is
end-of-stream; `panic` models `U64` arithmetic panics, `unwrap` on `None`,
and polling an already-completed future. -/
inductive Poll1 where
  | pending
  | ready (item : Option PollItem)
  | panic
deriving Repr, DecidableEq

/-- One `poll_next` on the query, consuming provider responses from
`script` when an in-flight RPC future completes.  Returns the new query,
the rest of the script, the RPC request issued during this poll (if any),
and the poll outcome. -/
def pollNext (q : LogQuery) (script : List Resp) :
    LogQuery × List Resp × Option Req × Poll1 :=
  match q.state with
  | .initial =>
    if !q.filter.is_paginatable then
      ({ q with state := .loadLogs none .awaitRpc }, script,
       some (.getLogs q.filter.fromBlock q.filter.toBlock), .pending)
    else
      match q.filter.toBlock with
      | some number =>
        ({ q with state := .loadLastBlock (.pureVal number) }, script, none, .pending)
      | none =>
        ({ q with state := .loadLastBlock .awaitRpc }, script, some .blockNumber, .pending)
  | .loadLastBlock slot =>
    let res : Option (List Resp × Except String Nat) :=
      match slot with
      | .pureVal n => some (script, .ok n)
      | .awaitRpc =>
        match script with
        | .blockNum r :: rest => some (rest, r)
        | _ => none
      | .spent => none
    match res with
    | none => (q, script, none, .panic)
    | some (script', .error e) =>
      ({ q with state := .loadLastBlock .spent }, script', none,
       .ready (some (.loadLastBlockError e)))
    | some (script', .ok last_block) =>
      match q.filter.fromBlock with
      | none => (q, script', none, .panic)
      | some from0 =>
        match pageWindowEnd from0 q.page_size with
        | none => (q, script', none, .panic)
        | some winEnd =>
          let to_block := min winEnd last_block
          match u64add to_block 1 with
          | none => (q, script', none, .panic)
          | some nextFrom =>
            ({ q with last_block := some last_block, from_block := some nextFrom,
                      state := .loadLogs (some from0) .awaitRpc },
             script', some (.getLogs (some from0) (some to_block)), .pending)
  | .loadLogs resume slot =>
    match slot with
    | .spent => (q, script, none, .panic)
    | .awaitRpc =>
      match script with
      | .logs (.ok logs) :: rest =>
        ({ q with current_logs := logs, page_size := q.expected_page_size,
                  state := .consume }, rest, none, .pending)
      | .logs (.error e) :: rest =>
        if errIsTooManyLogs e then
          ({ q with from_block := resume, page_size := q.page_size / 2,
                    state := .consume }, rest, none, .pending)
        else
          ({ q with state := .loadLogs resume .spent }, rest, none,
           .ready (some (.loadLogsError e)))
      | _ => (q, script, none, .panic)
  | .consume =>
    match q.current_logs with
    | l :: rest =>
      ({ q with current_logs := rest }, script, none, .ready (some (.log l)))
    | [] =>
      if !q.filter.is_paginatable then (q, script, none, .ready none)
      else
        match q.from_block with
        | none => (q, script, none, .panic)
        | some from0 =>
          let toRes : Option Nat :=
            match q.last_block with
            | some l => (pageWindowEnd from0 q.page_size).map (fun x => min x l)
            | none => pageWindowEnd from0 q.page_size
          match toRes with
          | none => (q, script, none, .panic)
          | some to_block =>
            match q.last_block with
            | none => (q, script, none, .panic)
            | some lb =>
              if from0 > lb then (q, script, none, .ready none)
              else
                match u64add to_block 1 with
                | none => (q, script, none, .panic)
                | some nextFrom =>
                  ({ q with from_block := some nextFrom,
                            state := .loadLogs (some from0) .awaitRpc },
                   script, some (.getLogs (some from0) (some to_block)), .pending)

/-- How a driven run ended. -/
inductive RunEnd where
  | done
  | panicked
  | outOfFuel
deriving Repr, DecidableEq

/-- Drive the stream with an insistent consumer: poll repeatedly
(continuing through `pending` rewakes and after emitted items) until
end-of-stream, a panic, or fuel runs out.  Collects the emitted items and
the RPC requests issued. -/
def runQuery : Nat → LogQuery → List Resp → List PollItem × List Req × RunEnd
  | 0, _, _ => ([], [], .outOfFuel)
  | fuel + 1, q, script =>
    let r := pollNext q script
    let reqs0 := r.2.2.1.toList
    match r.2.2.2 with
    | .pending =>
      let rest := runQuery fuel r.1 r.2.1
      (rest.1, reqs0 ++ rest.2.1, rest.2.2)
    | .ready none => ([], reqs0, .done)
    | .ready (some item) =>
      let rest := runQuery fuel r.1 r.2.1
      (item :: rest.1, reqs0 ++ rest.2.1, rest.2.2)
    | .panic => ([], reqs0, .panicked)

/-- A concrete in-flight-page query over the range `[0, 9]` used in
witnesses: the first page `[0, 9]` has been requested with resume cursor
`0` and the cursor already advanced past it. -/
def sampleLoadingQuery : LogQuery :=
  { filter := { fromBlock := some 0, toBlock := some 9 }, from_block := some 10,
    expected_page_size := 10, page_size := 10, current_logs := [],
    last_block := some 9, state := QState.loadLogs (some 0) LogsSlot.awaitRpc,
    delay := 0 }

/-- A concrete drained `Consume`-state query over `[0, 100]` with cursor
`0` and `page_size = 10`, used in witnesses. -/
def sampleConsumeQuery : LogQuery :=
  { filter := { fromBlock := some 0, toBlock := some 100 }, from_block := some 0,
    expected_page_size := 10, page_size := 10, current_logs := [],
    last_block := some 100, state := QState.consume, delay := 0 }

/-- A `Consume`-state query with `page_size = 0` and cursor `0` over
`[0, 100]` — the shape reached after `with_page_size 0` or after an
overflow halving from `page_size = 1`. -/
def samplePageSizeZeroQuery : LogQuery :=
  { filter := { fromBlock := some 0, toBlock := some 100 }, from_block := some 0,
    expected_page_size := 0, page_size := 0, current_logs := [],
    last_block := some 100, state := QState.consume, delay := 0 }

/-! ## Decimal rendering lemmas -/

theorem decVal_append (l : List Char) (c : Char) :
    decVal (l ++ [c]) = 10 * decVal l + (c.toNat - 48) := by
  simp [decVal, List.foldl_append]

theorem digitChar_toNat {d : Nat} (h : d < 10) : (digitChar d).toNat = 48 + d := by
  interval_cases d <;> decide

theorem decVal_decDigitsAux (fuel n : Nat) (h : n < fuel) :
    decVal (decDigitsAux fuel n) = n := by
  induction fuel generalizing n with
  | zero => omega
  | succ fuel ih =>
    rw [decDigitsAux]
    split
    · next h10 =>
      simp [decVal, digitChar_toNat h10]
    · next h10 =>
      have hdiv : n / 10 < n := Nat.div_lt_self (by omega) (by omega)
      rw [decVal_append, ih (n / 10) (by omega),
        digitChar_toNat (Nat.mod_lt n (by omega))]
      omega

theorem decVal_decDigits (n : Nat) : decVal (decDigits n) = n :=
  decVal_decDigitsAux (n + 1) n (Nat.lt_succ_self n)

theorem decRepr_inj {a b : Nat} (h : decRepr a = decRepr b) : a = b := by
  have hd : decDigits a = decDigits b := congrArg String.data h
  have := congrArg decVal hd
  rwa [decVal_decDigits, decVal_decDigits] at this

/-! ## String and key lemmas -/

theorem str_data_append (a b : String) : (a ++ b).data = a.data ++ b.data := by
  cases a; cases b; rfl

theorem str_eq_iff_data {a b : String} : a = b ↔ a.data = b.data :=
  ⟨fun h => congrArg String.data h, String.ext⟩

theorem key_seq_to_index_inj (name : String) {a b : Nat}
    (h : (TxStore.new name).key_seq_to_index a = (TxStore.new name).key_seq_to_index b) :
    a = b := by
  apply decRepr_inj
  rw [str_eq_iff_data]
  have hd := congrArg String.data h
  simp only [TxStore.key_seq_to_index, TxStore.new, str_data_append] at hd
  exact (List.append_right_inj _).mp hd

theorem key_index_to_seq_inj (name : String) {a b : Nat}
    (h : (TxStore.new name).key_index_to_seq a = (TxStore.new name).key_index_to_seq b) :
    a = b := by
  apply decRepr_inj
  rw [str_eq_iff_data]
  have hd := congrArg String.data h
  simp only [TxStore.key_index_to_seq, TxStore.new, str_data_append] at hd
  exact (List.append_right_inj _).mp hd

theorem key_seq_ne_index (name : String) (a b : Nat) :
    (TxStore.new name).key_seq_to_index a ≠ (TxStore.new name).key_index_to_seq b := by
  intro h
  have hd := congrArg String.data h
  simp only [TxStore.key_seq_to_index, TxStore.key_index_to_seq, TxStore.new,
    str_data_append, List.append_assoc] at hd
  have h2 := (List.append_right_inj _).mp hd
  have h3 := (List.append_right_inj _).mp h2
  simp only [List.cons_append, List.cons.injEq] at h3
  exact absurd h3.2.1 (by decide)

theorem key_count_ne_seq (name : String) (a : Nat) :
    (TxStore.new name).key_count ≠ (TxStore.new name).key_seq_to_index a := by
  intro h
  have hd := congrArg String.data h
  simp only [TxStore.key_seq_to_index, TxStore.new, str_data_append,
    List.append_assoc] at hd
  have h2 := (List.append_right_inj _).mp hd
  have h3 := (List.append_right_inj _).mp h2
  simp only [List.cons_append, List.cons.injEq] at h3
  exact absurd h3.2.1 (by decide)

theorem key_count_ne_index (name : String) (a : Nat) :
    (TxStore.new name).key_count ≠ (TxStore.new name).key_index_to_seq a := by
  intro h
  have hd := congrArg String.data h
  simp only [TxStore.key_index_to_seq, TxStore.new, str_data_append,
    List.append_assoc] at hd
  have h2 := (List.append_right_inj _).mp hd
  have h3 := (List.append_right_inj _).mp h2
  simp only [List.cons_append, List.cons.injEq] at h3
  exact absurd h3.2.1 (by decide)

/-! ## Config store lemmas -/

theorem kvGet_cons (k : String) (v : Nat) (st : Store) (key : String) :
    kvGet ((k, v) :: st) key = if k = key then some v else kvGet st key := rfl

theorem kvGet_kvRemoveKey (st : Store) (k key : String) :
    kvGet (kvRemoveKey st k) key = if key = k then none else kvGet st key := by
  induction st with
  | nil =>
    simp only [kvRemoveKey]
    show (none : Option Nat) = if key = k then none else (none : Option Nat)
    split <;> rfl
  | cons hd tl ih =>
    obtain ⟨hk, hv⟩ := hd
    simp only [kvRemoveKey]
    by_cases h1 : hk = k
    · rw [if_pos h1, ih, kvGet_cons]
      by_cases h2 : key = k
      · simp [h2]
      · rw [if_neg h2, if_neg h2, if_neg (fun hh : hk = key => h2 (hh ▸ h1))]
    · rw [if_neg h1, kvGet_cons, kvGet_cons, ih]
      by_cases h2 : hk = key
      · rw [if_pos h2, if_pos h2, if_neg (fun hh : key = k => h1 (h2.trans hh))]
      · rw [if_neg h2, if_neg h2]

/-! ## TxStore lookup lemmas -/

theorem add_commit_store (t : TxStore) (st : Store) (seq : Nat)
    (h : t.has st seq = false) :
    (t.add st none seq).1 =
      (t.key_count, t.count st + 1) ::
      (t.key_seq_to_index seq, t.count st) ::
      (t.key_index_to_seq (t.count st), seq) :: st := by
  simp [TxStore.add, h, applyTx, applyOp]

theorem add_count (name : String) (st : Store) (seq : Nat)
    (h : (TxStore.new name).has st seq = false) :
    (TxStore.new name).count ((TxStore.new name).add st none seq).1 =
      (TxStore.new name).count st + 1 := by
  rw [TxStore.count, add_commit_store _ _ _ h, kvGet_cons, if_pos rfl]
  rfl

theorem add_index_of (name : String) (st : Store) (seq s : Nat)
    (h : (TxStore.new name).has st seq = false) :
    (TxStore.new name).index_of ((TxStore.new name).add st none seq).1 s =
      if s = seq then some ((TxStore.new name).count st)
      else (TxStore.new name).index_of st s := by
  rw [TxStore.index_of, add_commit_store _ _ _ h, kvGet_cons, kvGet_cons, kvGet_cons,
    if_neg (key_count_ne_seq name s)]
  by_cases hs : s = seq
  · rw [if_pos hs, if_pos (by rw [hs])]
  · rw [if_neg hs, if_neg (fun hh => hs (key_seq_to_index_inj name hh).symm),
      if_neg (Ne.symm (key_seq_ne_index name s _))]
    rfl

theorem add_atIndex (name : String) (st : Store) (seq i : Nat)
    (h : (TxStore.new name).has st seq = false) :
    (TxStore.new name).atIndex ((TxStore.new name).add st none seq).1 i =
      if i = (TxStore.new name).count st then some seq
      else (TxStore.new name).atIndex st i := by
  rw [TxStore.atIndex, add_commit_store _ _ _ h, kvGet_cons, kvGet_cons, kvGet_cons,
    if_neg (key_count_ne_index name i), if_neg (key_seq_ne_index name seq i)]
  by_cases hi : i = (TxStore.new name).count st
  · rw [if_pos hi, if_pos (by rw [hi])]
  · rw [if_neg hi, if_neg (fun hh => hi (key_index_to_seq_inj name hh).symm)]
    rfl

theorem remove_tail_store (t : TxStore) (st : Store) (seq index : Nat)
    (hio : t.index_of st seq = some index) (hc : t.count st ≠ 0)
    (hi : index = t.count st - 1) :
    t.remove st none seq = some
      (kvRemoveKey (kvRemoveKey ((t.key_count, t.count st - 1) :: st)
        (t.key_seq_to_index seq)) (t.key_index_to_seq index), none, true) := by
  simp [TxStore.remove, hio, hc, hi, applyTx, applyOp]

theorem remove_swap_store (t : TxStore) (st : Store) (seq index last : Nat)
    (hio : t.index_of st seq = some index) (hc : t.count st ≠ 0)
    (hi : index ≠ t.count st - 1) (hl : t.atIndex st (t.count st - 1) = some last) :
    t.remove st none seq = some
      ((t.key_seq_to_index last, index) ::
        kvRemoveKey ((t.key_index_to_seq index, last) ::
          kvRemoveKey ((t.key_count, t.count st - 1) :: st) (t.key_seq_to_index seq))
          (t.key_index_to_seq (t.count st - 1)), none, true) := by
  simp [TxStore.remove, hio, hc, hi, hl, applyTx, applyOp]

theorem remove_tail_count (name : String) (st : Store) (seq index : Nat)
    (st' : Store)
    (hst : st' = kvRemoveKey (kvRemoveKey (((TxStore.new name).key_count,
      (TxStore.new name).count st - 1) :: st)
      ((TxStore.new name).key_seq_to_index seq)) ((TxStore.new name).key_index_to_seq index)) :
    (TxStore.new name).count st' = (TxStore.new name).count st - 1 := by
  rw [TxStore.count, hst, kvGet_kvRemoveKey, if_neg (key_count_ne_index name index),
    kvGet_kvRemoveKey, if_neg (key_count_ne_seq name seq), kvGet_cons, if_pos rfl]
  rfl

theorem remove_tail_index_of (name : String) (st : Store) (seq index s : Nat)
    (st' : Store)
    (hst : st' = kvRemoveKey (kvRemoveKey (((TxStore.new name).key_count,
      (TxStore.new name).count st - 1) :: st)
      ((TxStore.new name).key_seq_to_index seq)) ((TxStore.new name).key_index_to_seq index)) :
    (TxStore.new name).index_of st' s =
      if s = seq then none else (TxStore.new name).index_of st s := by
  rw [TxStore.index_of, hst, kvGet_kvRemoveKey, if_neg (key_seq_ne_index name s index),
    kvGet_kvRemoveKey]
  by_cases hs : s = seq
  · rw [if_pos (by rw [hs]), if_pos hs]
  · rw [if_neg (fun hh => hs (key_seq_to_index_inj name hh)), if_neg hs, kvGet_cons,
      if_neg (key_count_ne_seq name s)]
    rfl

theorem remove_tail_atIndex (name : String) (st : Store) (seq index i : Nat)
    (st' : Store)
    (hst : st' = kvRemoveKey (kvRemoveKey (((TxStore.new name).key_count,
      (TxStore.new name).count st - 1) :: st)
      ((TxStore.new name).key_seq_to_index seq)) ((TxStore.new name).key_index_to_seq index)) :
    (TxStore.new name).atIndex st' i =
      if i = index then none else (TxStore.new name).atIndex st i := by
  rw [TxStore.atIndex, hst, kvGet_kvRemoveKey]
  by_cases hi : i = index
  · rw [if_pos (by rw [hi]), if_pos hi]
  · rw [if_neg (fun hh => hi (key_index_to_seq_inj name hh)), if_neg hi,
      kvGet_kvRemoveKey, if_neg (Ne.symm (key_seq_ne_index name seq i)), kvGet_cons,
      if_neg (key_count_ne_index name i)]
    rfl

theorem remove_swap_count (name : String) (st : Store) (seq index last : Nat)
    (st' : Store)
    (hst : st' = ((TxStore.new name).key_seq_to_index last, index) ::
      kvRemoveKey (((TxStore.new name).key_index_to_seq index, last) ::
        kvRemoveKey (((TxStore.new name).key_count, (TxStore.new name).count st - 1) :: st)
          ((TxStore.new name).key_seq_to_index seq))
        ((TxStore.new name).key_index_to_seq ((TxStore.new name).count st - 1))) :
    (TxStore.new name).count st' = (TxStore.new name).count st - 1 := by
  rw [TxStore.count, hst, kvGet_cons, if_neg (Ne.symm (key_count_ne_seq name last)),
    kvGet_kvRemoveKey, if_neg (key_count_ne_index name _), kvGet_cons,
    if_neg (Ne.symm (key_count_ne_index name index)), kvGet_kvRemoveKey,
    if_neg (key_count_ne_seq name seq), kvGet_cons, if_pos rfl]
  rfl

theorem remove_swap_index_of (name : String) (st : Store) (seq index last s : Nat)
    (st' : Store)
    (hst : st' = ((TxStore.new name).key_seq_to_index last, index) ::
      kvRemoveKey (((TxStore.new name).key_index_to_seq index, last) ::
        kvRemoveKey (((TxStore.new name).key_count, (TxStore.new name).count st - 1) :: st)
          ((TxStore.new name).key_seq_to_index seq))
        ((TxStore.new name).key_index_to_seq ((TxStore.new name).count st - 1))) :
    (TxStore.new name).index_of st' s =
      if s = last then some index
      else if s = seq then none
      else (TxStore.new name).index_of st s := by
  rw [TxStore.index_of, hst, kvGet_cons]
  by_cases hs : s = last
  · rw [if_pos (by rw [hs]), if_pos hs]
  · rw [if_neg (fun hh => hs (key_seq_to_index_inj name hh).symm), if_neg hs,
      kvGet_kvRemoveKey, if_neg (key_seq_ne_index name s _), kvGet_cons,
      if_neg (Ne.symm (key_seq_ne_index name s index)), kvGet_kvRemoveKey]
    by_cases h2 : s = seq
    · rw [if_pos (by rw [h2]), if_pos h2]
    · rw [if_neg (fun hh => h2 (key_seq_to_index_inj name hh)), if_neg h2, kvGet_cons,
        if_neg (key_count_ne_seq name s)]
      rfl

theorem remove_swap_atIndex (name : String) (st : Store) (seq index last i : Nat)
    (st' : Store)
    (hst : st' = ((TxStore.new name).key_seq_to_index last, index) ::
      kvRemoveKey (((TxStore.new name).key_index_to_seq index, last) ::
        kvRemoveKey (((TxStore.new name).key_count, (TxStore.new name).count st - 1) :: st)
          ((TxStore.new name).key_seq_to_index seq))
        ((TxStore.new name).key_index_to_seq ((TxStore.new name).count st - 1))) :
    (TxStore.new name).atIndex st' i =
      if i = (TxStore.new name).count st - 1 then none
      else if i = index then some last
      else (TxStore.new name).atIndex st i := by
  rw [TxStore.atIndex, hst, kvGet_cons, if_neg (key_seq_ne_index name last i),
    kvGet_kvRemoveKey]
  by_cases hi : i = (TxStore.new name).count st - 1
  · rw [if_pos (by rw [hi]), if_pos hi]
  · rw [if_neg (fun hh => hi (key_index_to_seq_inj name hh)), if_neg hi, kvGet_cons]
    by_cases h2 : i = index
    · rw [if_pos (by rw [h2]), if_pos h2]
    · rw [if_neg (fun hh => h2 (key_index_to_seq_inj name hh).symm), if_neg h2,
        kvGet_kvRemoveKey, if_neg (Ne.symm (key_seq_ne_index name seq i)), kvGet_cons,
        if_neg (key_count_ne_index name i)]
      rfl

/-! ## Invariant preservation -/

theorem inv_empty (name : String) : StoreInv (TxStore.new name) [] := by
  refine ⟨fun i => ?_, fun i s h => ?_, fun s i h => ?_⟩
  · simp [TxStore.atIndex, TxStore.count, kvGet]
  · simp [TxStore.atIndex, kvGet] at h
  · simp [TxStore.index_of, kvGet] at h

theorem has_false_index_of (t : TxStore) (st : Store) (seq : Nat)
    (h : t.has st seq = false) : t.index_of st seq = none := by
  cases hh : t.index_of st seq with
  | none => rfl
  | some v => rw [TxStore.has, hh] at h; simp at h

theorem inv_add_preserved (name : String) (st : Store) (seq : Nat)
    (hInv : StoreInv (TxStore.new name) st) :
    StoreInv (TxStore.new name) ((TxStore.new name).add st none seq).1 := by
  by_cases h : (TxStore.new name).has st seq
  · have : ((TxStore.new name).add st none seq).1 = st := by
      simp [TxStore.add, h]
    rw [this]; exact hInv
  · rw [Bool.not_eq_true] at h
    obtain ⟨h4, h3, h2⟩ := hInv
    have hnone := has_false_index_of _ _ _ h
    refine ⟨fun i => ?_, fun i s hat => ?_, fun s i hio => ?_⟩
    · rw [add_atIndex name st seq i h, add_count name st seq h]
      by_cases hi : i = (TxStore.new name).count st
      · simp [hi]
      · rw [if_neg hi]
        rw [h4 i]
        omega
    · rw [add_atIndex name st seq i h] at hat
      rw [add_index_of name st seq s h]
      by_cases hi : i = (TxStore.new name).count st
      · rw [if_pos hi] at hat
        injection hat with hat
        rw [if_pos hat.symm, hi]
      · rw [if_neg hi] at hat
        have hios := h3 i s hat
        have hsne : s ≠ seq := by
          intro hh
          rw [hh, hnone] at hios
          exact Option.noConfusion hios
        rw [if_neg hsne]
        exact hios
    · rw [add_index_of name st seq s h] at hio
      rw [add_atIndex name st seq i h]
      by_cases hs : s = seq
      · rw [if_pos hs] at hio
        injection hio with hio
        rw [if_pos hio.symm, hs]
      · rw [if_neg hs] at hio
        have hat := h2 s i hio
        have hine : i ≠ (TxStore.new name).count st := by
          intro hh
          have := (h4 i).mp (by rw [hat]; rfl)
          omega
        rw [if_neg hine]
        exact hat

theorem inv_remove_step (name : String) (st : Store) (seq : Nat)
    (hInv : StoreInv (TxStore.new name) st) :
    ∃ r, (TxStore.new name).remove st none seq = some r ∧
      StoreInv (TxStore.new name) r.1 := by
  obtain ⟨h4, h3, h2⟩ := hInv
  cases hio : (TxStore.new name).index_of st seq with
  | none =>
    refine ⟨(st, none, false), ?_, h4, h3, h2⟩
    simp [TxStore.remove, hio]
  | some index =>
    have hat := h2 seq index hio
    have hlt : index < (TxStore.new name).count st := (h4 index).mp (by rw [hat]; rfl)
    have hcne : (TxStore.new name).count st ≠ 0 := by omega
    by_cases hidx : index = (TxStore.new name).count st - 1
    · refine ⟨_, remove_tail_store _ st seq index hio hcne hidx, ?_⟩
      refine ⟨fun i => ?_, fun i s hat2 => ?_, fun s i hio2 => ?_⟩
      · rw [remove_tail_atIndex name st seq index i _ rfl,
          remove_tail_count name st seq index _ rfl]
        by_cases hi : i = index
        · simp [hi]; omega
        · rw [if_neg hi, h4 i]; omega
      · rw [remove_tail_atIndex name st seq index i _ rfl] at hat2
        rw [remove_tail_index_of name st seq index s _ rfl]
        by_cases hi : i = index
        · rw [if_pos hi] at hat2; exact Option.noConfusion hat2
        · rw [if_neg hi] at hat2
          have hios := h3 i s hat2
          have hsne : s ≠ seq := by
            intro hh
            rw [hh, hio] at hios
            injection hios with hios
            exact hi hios.symm
          rw [if_neg hsne]
          exact hios
      · rw [remove_tail_index_of name st seq index s _ rfl] at hio2
        rw [remove_tail_atIndex name st seq index i _ rfl]
        by_cases hs : s = seq
        · rw [if_pos hs] at hio2; exact Option.noConfusion hio2
        · rw [if_neg hs] at hio2
          have hat2 := h2 s i hio2
          have hine : i ≠ index := by
            intro hh
            rw [hh, hat] at hat2
            injection hat2 with hat2
            exact hs hat2.symm
          rw [if_neg hine]
          exact hat2
    · have hsome : ((TxStore.new name).atIndex st ((TxStore.new name).count st - 1)).isSome := by
        rw [h4]; omega
      obtain ⟨last, hlast⟩ := Option.isSome_iff_exists.mp hsome
      have hlastio := h3 _ last hlast
      have hlast_ne : last ≠ seq := by
        intro hh
        rw [hh, hio] at hlastio
        injection hlastio with hlastio
        exact hidx hlastio
      refine ⟨_, remove_swap_store _ st seq index last hio hcne hidx hlast, ?_⟩
      refine ⟨fun i => ?_, fun i s hat2 => ?_, fun s i hio2 => ?_⟩
      · rw [remove_swap_atIndex name st seq index last i _ rfl,
          remove_swap_count name st seq index last _ rfl]
        by_cases hi : i = (TxStore.new name).count st - 1
        · simp [hi]
        · rw [if_neg hi]
          by_cases h2i : i = index
          · simp [h2i]; omega
          · rw [if_neg h2i, h4 i]; omega
      · rw [remove_swap_atIndex name st seq index last i _ rfl] at hat2
        rw [remove_swap_index_of name st seq index last s _ rfl]
        by_cases hi : i = (TxStore.new name).count st - 1
        · rw [if_pos hi] at hat2; exact Option.noConfusion hat2
        · rw [if_neg hi] at hat2
          by_cases h2i : i = index
          · rw [if_pos h2i] at hat2
            injection hat2 with hat2
            rw [if_pos hat2.symm, h2i]
          · rw [if_neg h2i] at hat2
            have hios := h3 i s hat2
            have hs_ne_last : s ≠ last := by
              intro hh
              rw [hh, hlastio] at hios
              injection hios with hios
              exact hi hios.symm
            have hs_ne_seq : s ≠ seq := by
              intro hh
              rw [hh, hio] at hios
              injection hios with hios
              exact h2i hios.symm
            rw [if_neg hs_ne_last, if_neg hs_ne_seq]
            exact hios
      · rw [remove_swap_index_of name st seq index last s _ rfl] at hio2
        rw [remove_swap_atIndex name st seq index last i _ rfl]
        by_cases hs : s = last
        · rw [if_pos hs] at hio2
          injection hio2 with hio2
          rw [if_neg (by omega : i ≠ (TxStore.new name).count st - 1), if_pos hio2.symm, hs]
        · rw [if_neg hs] at hio2
          by_cases hs2 : s = seq
          · rw [if_pos hs2] at hio2; exact Option.noConfusion hio2
          · rw [if_neg hs2] at hio2
            have hat2 := h2 s i hio2
            have hine1 : i ≠ (TxStore.new name).count st - 1 := by
              intro hh
              rw [hh, hlast] at hat2
              injection hat2 with hat2
              exact hs hat2.symm
            have hine2 : i ≠ index := by
              intro hh
              rw [hh, hat] at hat2
              injection hat2 with hat2
              exact hs2 hat2.symm
            rw [if_neg hine1, if_neg hine2]
            exact hat2

theorem inv_execTxOp (name : String) (st : Store) (op : TxOp)
    (hInv : StoreInv (TxStore.new name) st) :
    ∃ st', execTxOp (TxStore.new name) st op = some st' ∧
      StoreInv (TxStore.new name) st' := by
  cases op with
  | addOp s =>
    exact ⟨_, rfl, inv_add_preserved name st s hInv⟩
  | removeOp s =>
    obtain ⟨r, hr, hrInv⟩ := inv_remove_step name st s hInv
    exact ⟨r.1, by simp [execTxOp, hr], hrInv⟩

theorem inv_execTxOps (name : String) (ops : List TxOp) (st : Store)
    (hInv : StoreInv (TxStore.new name) st) :
    ∃ st', execTxOps (TxStore.new name) ops st = some st' ∧
      StoreInv (TxStore.new name) st' := by
  induction ops generalizing st with
  | nil => exact ⟨st, rfl, hInv⟩
  | cons op rest ih =>
    obtain ⟨st1, h1, h1Inv⟩ := inv_execTxOp name st op hInv
    obtain ⟨st', h2, h2Inv⟩ := ih st1 h1Inv
    exact ⟨st', by simp [execTxOps, h1, h2], h2Inv⟩

/-! ## Cardinality consequences of the invariant -/

theorem filterMap_length_all_some (l : List Nat) (f : Nat → Option Nat)
    (h : ∀ a ∈ l, (f a).isSome) : (l.filterMap f).length = l.length := by
  induction l with
  | nil => rfl
  | cons a rest ih =>
    have ha := h a (List.mem_cons_self a rest)
    obtain ⟨b, hb⟩ := Option.isSome_iff_exists.mp ha
    rw [List.filterMap_cons, hb]
    simp only [List.length_cons]
    rw [ih (fun x hx => h x (List.mem_cons_of_mem a hx))]

theorem membersList_length (name : String) (st : Store)
    (hInv : StoreInv (TxStore.new name) st) :
    (membersList (TxStore.new name) st).length = (TxStore.new name).count st := by
  rw [membersList, filterMap_length_all_some _ _ (fun i hi => ?_), List.length_range]
  rw [(hInv.1 i)]
  exact List.mem_range.mp hi

theorem membersList_nodup (name : String) (st : Store)
    (hInv : StoreInv (TxStore.new name) st) :
    (membersList (TxStore.new name) st).Nodup := by
  refine List.Nodup.filterMap (fun a a' b hb hb' => ?_) (List.nodup_range _)
  rw [Option.mem_def] at hb hb'
  have h1 := hInv.2.1 a b hb
  have h2 := hInv.2.1 a' b hb'
  rw [h1] at h2
  injection h2

theorem membersList_mem (name : String) (st : Store) (s : Nat)
    (hInv : StoreInv (TxStore.new name) st) :
    s ∈ membersList (TxStore.new name) st ↔
      ((TxStore.new name).index_of st s).isSome := by
  rw [membersList, List.mem_filterMap]
  constructor
  · rintro ⟨i, _, hat⟩
    rw [hInv.2.1 i s hat]
    rfl
  · intro h
    obtain ⟨i, hi⟩ := Option.isSome_iff_exists.mp h
    have hat := hInv.2.2 s i hi
    refine ⟨i, List.mem_range.mpr ?_, hat⟩
    exact (hInv.1 i).mp (by rw [hat]; rfl)

/-! ## Claim theorems -/

/-- C1: for every finite sequence of committed `add`/`remove` operations on
a `TxStore` starting from the empty store, the run never hits a corruption
panic, and after the mutations the four structural invariants hold:
the count equals the number of `seq2index` records and the number of
`index2seq` records; `index2seq[seq2index[seq]] = seq` for every member;
`seq2index[index2seq[slot]] = slot` for every `slot < count`; and the
occupied slots are exactly the contiguous prefix `0, ..., count - 1`.
Since `ops` ranges over all finite sequences, the conclusion holds after
every committed mutation of any run (instantiate `ops` with each prefix). -/
theorem txStore_structural_invariants (name : String) (ops : List TxOp) :
    ∃ st, execTxOps (TxStore.new name) ops [] = some st ∧
      (∃ members : List Nat, members.Nodup ∧
        members.length = (TxStore.new name).count st ∧
        (∀ s, s ∈ members ↔ ((TxStore.new name).index_of st s).isSome)) ∧
      (∃ slots : List Nat, slots.Nodup ∧
        slots.length = (TxStore.new name).count st ∧
        (∀ i, i ∈ slots ↔ ((TxStore.new name).atIndex st i).isSome)) ∧
      (∀ s i, (TxStore.new name).index_of st s = some i →
        (TxStore.new name).atIndex st i = some s) ∧
      (∀ i, i < (TxStore.new name).count st →
        ∃ s, (TxStore.new name).atIndex st i = some s ∧
          (TxStore.new name).index_of st s = some i) ∧
      (∀ i, ((TxStore.new name).atIndex st i).isSome ↔ i < (TxStore.new name).count st) := by
  obtain ⟨st, hexec, hInv⟩ := inv_execTxOps name ops [] (inv_empty name)
  refine ⟨st, hexec, ?_, ?_, hInv.2.2, ?_, hInv.1⟩
  · exact ⟨membersList (TxStore.new name) st, membersList_nodup name st hInv,
      membersList_length name st hInv, fun s => membersList_mem name st s hInv⟩
  · refine ⟨List.range ((TxStore.new name).count st), List.nodup_range _,
      List.length_range _, fun i => ?_⟩
    rw [List.mem_range, hInv.1 i]
  · intro i hi
    obtain ⟨s, hs⟩ := Option.isSome_iff_exists.mp ((hInv.1 i).mpr hi)
    exact ⟨s, hs, hInv.2.1 i s hs⟩

/-- C7: `add` returns `true` iff the sequence number was not already
present; in the newly-inserted case it composes exactly the three writes
(`index2seq[count]`, `seq2index[seq]`, `count`) — applied atomically as one
batch in committed mode, appended verbatim to the external batch in batch
mode with the store untouched; and a second consecutive committed `add` of
the same sequence number returns `false` and leaves the store (hence the
count and every persisted record) unchanged. -/
theorem txStore_add_contract (name : String) (st : Store) (seq : Nat) :
    (((TxStore.new name).add st none seq).2.2 = !(TxStore.new name).has st seq) ∧
    ((TxStore.new name).has st seq = false →
      ((TxStore.new name).add st none seq).1 = applyTx st
        [CfgOp.setCfg ((TxStore.new name).key_index_to_seq ((TxStore.new name).count st)) seq,
         CfgOp.setCfg ((TxStore.new name).key_seq_to_index seq) ((TxStore.new name).count st),
         CfgOp.setCfg (TxStore.new name).key_count ((TxStore.new name).count st + 1)] ∧
      (∀ db : ConfigTx,
        ((TxStore.new name).add st (some db) seq).2.1 = some (db ++
          [CfgOp.setCfg ((TxStore.new name).key_index_to_seq ((TxStore.new name).count st)) seq,
           CfgOp.setCfg ((TxStore.new name).key_seq_to_index seq) ((TxStore.new name).count st),
           CfgOp.setCfg (TxStore.new name).key_count ((TxStore.new name).count st + 1)]) ∧
        ((TxStore.new name).add st (some db) seq).1 = st)) ∧
    ((TxStore.new name).add ((TxStore.new name).add st none seq).1 none seq).2.2 = false ∧
    ((TxStore.new name).add ((TxStore.new name).add st none seq).1 none seq).1 =
      ((TxStore.new name).add st none seq).1 := by
  by_cases h : (TxStore.new name).has st seq
  · have hadd : (TxStore.new name).add st none seq = (st, none, false) := by
      simp [TxStore.add, h]
    refine ⟨by rw [hadd, h]; rfl, fun hc => ?_, ?_, ?_⟩
    · rw [hc] at h; exact Bool.noConfusion h
    · rw [hadd]; simp [TxStore.add, h]
    · rw [hadd]; simp [TxStore.add, h]
  · rw [Bool.not_eq_true] at h
    have h2 : (TxStore.new name).has ((TxStore.new name).add st none seq).1 seq = true := by
      rw [TxStore.has, add_index_of name st seq seq h, if_pos rfl]
      rfl
    refine ⟨by rw [h]; simp [TxStore.add, h], fun _ => ⟨?_, fun db => ⟨?_, ?_⟩⟩, ?_, ?_⟩
    · simp [TxStore.add, h]
    · simp [TxStore.add, h]
    · simp [TxStore.add, h]
    · set st1 := ((TxStore.new name).add st none seq).1 with hst1
      simp [TxStore.add, h2]
    · set st1 := ((TxStore.new name).add st none seq).1 with hst1
      simp [TxStore.add, h2]

/-- C7 witness: the contract instantiated at `name = "foo"`, the empty
store, and `seq = 5`, with the not-yet-present hypothesis discharged
concretely. -/
theorem txStore_add_contract_witness :
    ((TxStore.new "foo").has [] 5 = false) ∧
    ((TxStore.new "foo").add [] none 5).2.2 = !(TxStore.new "foo").has [] 5 ∧
    ((TxStore.new "foo").add ((TxStore.new "foo").add [] none 5).1 none 5).2.2 = false :=
  ⟨by decide, (txStore_add_contract "foo" [] 5).1,
    (txStore_add_contract "foo" [] 5).2.2.1⟩

/-- C9: `add` with an external batch reads `has` and `count` from the
committed store only, ignoring writes already pending in the batch.
Appending two adds of distinct absent sequence numbers to the same batch
therefore assigns both the same slot `count` and writes a final count of
`count + 1`; once that batch commits, both `seq2index` records point to
slot `count`, which holds only the second sequence, so the structural
invariants are violated. -/
theorem txStore_add_batch_slot_collision (name : String) (st : Store) (s1 s2 : Nat)
    (h1 : (TxStore.new name).has st s1 = false)
    (h2 : (TxStore.new name).has st s2 = false)
    (hne : s1 ≠ s2) :
    ((TxStore.new name).add st (some []) s1).2.2 = true ∧
    ((TxStore.new name).add st (some []) s1).1 = st ∧
    ((TxStore.new name).add st ((TxStore.new name).add st (some []) s1).2.1 s2).2.2 = true ∧
    ((TxStore.new name).add st ((TxStore.new name).add st (some []) s1).2.1 s2).2.1 = some
      [CfgOp.setCfg ((TxStore.new name).key_index_to_seq ((TxStore.new name).count st)) s1,
       CfgOp.setCfg ((TxStore.new name).key_seq_to_index s1) ((TxStore.new name).count st),
       CfgOp.setCfg (TxStore.new name).key_count ((TxStore.new name).count st + 1),
       CfgOp.setCfg ((TxStore.new name).key_index_to_seq ((TxStore.new name).count st)) s2,
       CfgOp.setCfg ((TxStore.new name).key_seq_to_index s2) ((TxStore.new name).count st),
       CfgOp.setCfg (TxStore.new name).key_count ((TxStore.new name).count st + 1)] ∧
    ((TxStore.new name).count (applyTx st
      [CfgOp.setCfg ((TxStore.new name).key_index_to_seq ((TxStore.new name).count st)) s1,
       CfgOp.setCfg ((TxStore.new name).key_seq_to_index s1) ((TxStore.new name).count st),
       CfgOp.setCfg (TxStore.new name).key_count ((TxStore.new name).count st + 1),
       CfgOp.setCfg ((TxStore.new name).key_index_to_seq ((TxStore.new name).count st)) s2,
       CfgOp.setCfg ((TxStore.new name).key_seq_to_index s2) ((TxStore.new name).count st),
       CfgOp.setCfg (TxStore.new name).key_count ((TxStore.new name).count st + 1)]) =
      (TxStore.new name).count st + 1) ∧
    ((TxStore.new name).index_of (applyTx st
      [CfgOp.setCfg ((TxStore.new name).key_index_to_seq ((TxStore.new name).count st)) s1,
       CfgOp.setCfg ((TxStore.new name).key_seq_to_index s1) ((TxStore.new name).count st),
       CfgOp.setCfg (TxStore.new name).key_count ((TxStore.new name).count st + 1),
       CfgOp.setCfg ((TxStore.new name).key_index_to_seq ((TxStore.new name).count st)) s2,
       CfgOp.setCfg ((TxStore.new name).key_seq_to_index s2) ((TxStore.new name).count st),
       CfgOp.setCfg (TxStore.new name).key_count ((TxStore.new name).count st + 1)]) s1 =
      some ((TxStore.new name).count st)) ∧
    ((TxStore.new name).index_of (applyTx st
      [CfgOp.setCfg ((TxStore.new name).key_index_to_seq ((TxStore.new name).count st)) s1,
       CfgOp.setCfg ((TxStore.new name).key_seq_to_index s1) ((TxStore.new name).count st),
       CfgOp.setCfg (TxStore.new name).key_count ((TxStore.new name).count st + 1),
       CfgOp.setCfg ((TxStore.new name).key_index_to_seq ((TxStore.new name).count st)) s2,
       CfgOp.setCfg ((TxStore.new name).key_seq_to_index s2) ((TxStore.new name).count st),
       CfgOp.setCfg (TxStore.new name).key_count ((TxStore.new name).count st + 1)]) s2 =
      some ((TxStore.new name).count st)) ∧
    ((TxStore.new name).atIndex (applyTx st
      [CfgOp.setCfg ((TxStore.new name).key_index_to_seq ((TxStore.new name).count st)) s1,
       CfgOp.setCfg ((TxStore.new name).key_seq_to_index s1) ((TxStore.new name).count st),
       CfgOp.setCfg (TxStore.new name).key_count ((TxStore.new name).count st + 1),
       CfgOp.setCfg ((TxStore.new name).key_index_to_seq ((TxStore.new name).count st)) s2,
       CfgOp.setCfg ((TxStore.new name).key_seq_to_index s2) ((TxStore.new name).count st),
       CfgOp.setCfg (TxStore.new name).key_count ((TxStore.new name).count st + 1)])
      ((TxStore.new name).count st) = some s2) ∧
    ¬ StoreInv (TxStore.new name) (applyTx st
      [CfgOp.setCfg ((TxStore.new name).key_index_to_seq ((TxStore.new name).count st)) s1,
       CfgOp.setCfg ((TxStore.new name).key_seq_to_index s1) ((TxStore.new name).count st),
       CfgOp.setCfg (TxStore.new name).key_count ((TxStore.new name).count st + 1),
       CfgOp.setCfg ((TxStore.new name).key_index_to_seq ((TxStore.new name).count st)) s2,
       CfgOp.setCfg ((TxStore.new name).key_seq_to_index s2) ((TxStore.new name).count st),
       CfgOp.setCfg (TxStore.new name).key_count ((TxStore.new name).count st + 1)]) := by
  have e1 : (TxStore.new name).add st (some []) s1 = (st, some
      [CfgOp.setCfg ((TxStore.new name).key_index_to_seq ((TxStore.new name).count st)) s1,
       CfgOp.setCfg ((TxStore.new name).key_seq_to_index s1) ((TxStore.new name).count st),
       CfgOp.setCfg (TxStore.new name).key_count ((TxStore.new name).count st + 1)], true) := by
    simp [TxStore.add, h1]
  have e3 : applyTx st
      [CfgOp.setCfg ((TxStore.new name).key_index_to_seq ((TxStore.new name).count st)) s1,
       CfgOp.setCfg ((TxStore.new name).key_seq_to_index s1) ((TxStore.new name).count st),
       CfgOp.setCfg (TxStore.new name).key_count ((TxStore.new name).count st + 1),
       CfgOp.setCfg ((TxStore.new name).key_index_to_seq ((TxStore.new name).count st)) s2,
       CfgOp.setCfg ((TxStore.new name).key_seq_to_index s2) ((TxStore.new name).count st),
       CfgOp.setCfg (TxStore.new name).key_count ((TxStore.new name).count st + 1)] =
      ((TxStore.new name).key_count, (TxStore.new name).count st + 1) ::
      ((TxStore.new name).key_seq_to_index s2, (TxStore.new name).count st) ::
      ((TxStore.new name).key_index_to_seq ((TxStore.new name).count st), s2) ::
      ((TxStore.new name).key_count, (TxStore.new name).count st + 1) ::
      ((TxStore.new name).key_seq_to_index s1, (TxStore.new name).count st) ::
      ((TxStore.new name).key_index_to_seq ((TxStore.new name).count st), s1) :: st := by
    simp [applyTx, applyOp]
  have hio1 : (TxStore.new name).index_of (applyTx st
      [CfgOp.setCfg ((TxStore.new name).key_index_to_seq ((TxStore.new name).count st)) s1,
       CfgOp.setCfg ((TxStore.new name).key_seq_to_index s1) ((TxStore.new name).count st),
       CfgOp.setCfg (TxStore.new name).key_count ((TxStore.new name).count st + 1),
       CfgOp.setCfg ((TxStore.new name).key_index_to_seq ((TxStore.new name).count st)) s2,
       CfgOp.setCfg ((TxStore.new name).key_seq_to_index s2) ((TxStore.new name).count st),
       CfgOp.setCfg (TxStore.new name).key_count ((TxStore.new name).count st + 1)]) s1 =
      some ((TxStore.new name).count st) := by
    rw [TxStore.index_of, e3, kvGet_cons, if_neg (key_count_ne_seq name s1), kvGet_cons,
      if_neg (fun hh => hne (key_seq_to_index_inj name hh).symm), kvGet_cons,
      if_neg (Ne.symm (key_seq_ne_index name s1 _)), kvGet_cons,
      if_neg (key_count_ne_seq name s1), kvGet_cons, if_pos rfl]
  have hat1 : (TxStore.new name).atIndex (applyTx st
      [CfgOp.setCfg ((TxStore.new name).key_index_to_seq ((TxStore.new name).count st)) s1,
       CfgOp.setCfg ((TxStore.new name).key_seq_to_index s1) ((TxStore.new name).count st),
       CfgOp.setCfg (TxStore.new name).key_count ((TxStore.new name).count st + 1),
       CfgOp.setCfg ((TxStore.new name).key_index_to_seq ((TxStore.new name).count st)) s2,
       CfgOp.setCfg ((TxStore.new name).key_seq_to_index s2) ((TxStore.new name).count st),
       CfgOp.setCfg (TxStore.new name).key_count ((TxStore.new name).count st + 1)])
      ((TxStore.new name).count st) = some s2 := by
    rw [TxStore.atIndex, e3, kvGet_cons, if_neg (key_count_ne_index name _), kvGet_cons,
      if_neg (key_seq_ne_index name s2 _), kvGet_cons, if_pos rfl]
  refine ⟨by rw [e1], by rw [e1], ?_, ?_, ?_, hio1, ?_, hat1, ?_⟩
  · rw [e1]; simp [TxStore.add, h2]
  · rw [e1]; simp [TxStore.add, h2]
  · rw [TxStore.count, e3, kvGet_cons, if_pos rfl]; rfl
  · rw [TxStore.index_of, e3, kvGet_cons, if_neg (key_count_ne_seq name s2), kvGet_cons,
      if_pos rfl]
  · intro hInv
    have ha := hInv.2.2 s1 ((TxStore.new name).count st) hio1
    rw [hat1] at ha
    injection ha with ha
    exact hne ha.symm

/-- C9 witness: the slot collision realized at `name = "foo"`, the empty
store, and sequence numbers `1` and `2`. -/
theorem txStore_add_batch_slot_collision_witness :
    ((TxStore.new "foo").has [] 1 = false) ∧ ((TxStore.new "foo").has [] 2 = false) ∧
    ((TxStore.new "foo").index_of (applyTx []
      [CfgOp.setCfg ((TxStore.new "foo").key_index_to_seq ((TxStore.new "foo").count [])) 1,
       CfgOp.setCfg ((TxStore.new "foo").key_seq_to_index 1) ((TxStore.new "foo").count []),
       CfgOp.setCfg (TxStore.new "foo").key_count ((TxStore.new "foo").count [] + 1),
       CfgOp.setCfg ((TxStore.new "foo").key_index_to_seq ((TxStore.new "foo").count [])) 2,
       CfgOp.setCfg ((TxStore.new "foo").key_seq_to_index 2) ((TxStore.new "foo").count []),
       CfgOp.setCfg (TxStore.new "foo").key_count ((TxStore.new "foo").count [] + 1)]) 1 =
      some ((TxStore.new "foo").count [])) ∧
    ¬ StoreInv (TxStore.new "foo") (applyTx []
      [CfgOp.setCfg ((TxStore.new "foo").key_index_to_seq ((TxStore.new "foo").count [])) 1,
       CfgOp.setCfg ((TxStore.new "foo").key_seq_to_index 1) ((TxStore.new "foo").count []),
       CfgOp.setCfg (TxStore.new "foo").key_count ((TxStore.new "foo").count [] + 1),
       CfgOp.setCfg ((TxStore.new "foo").key_index_to_seq ((TxStore.new "foo").count [])) 2,
       CfgOp.setCfg ((TxStore.new "foo").key_seq_to_index 2) ((TxStore.new "foo").count []),
       CfgOp.setCfg (TxStore.new "foo").key_count ((TxStore.new "foo").count [] + 1)]) :=
  ⟨by decide, by decide,
    (txStore_add_batch_slot_collision "foo" [] 1 2 (by decide) (by decide)
      (by decide)).2.2.2.2.2.1,
    (txStore_add_batch_slot_collision "foo" [] 1 2 (by decide) (by decide)
      (by decide)).2.2.2.2.2.2.2.2⟩

/-- C6 counterexample: the persisted keys are not `txs.<name>.count`,
`txs.<name>.seq2index.<seq>`, `txs.<name>.index2seq.<slot>` — at
`name = "foo"` the actual keys carry the `sync.manager.` namespace. -/
theorem txStore_key_schema_counterexample :
    (TxStore.new "foo").key_count ≠ "txs.foo.count" ∧
    (TxStore.new "foo").key_seq_to_index 5 ≠ "txs.foo.seq2index.5" ∧
    (TxStore.new "foo").key_index_to_seq 3 ≠ "txs.foo.index2seq.3" ∧
    (TxStore.new "foo").key_count = "sync.manager.txs.foo.count" := by decide

/-- C6 amended: the three persisted record kinds of a `TxStore` named
`name` live under exactly the keys `sync.manager.txs.<name>.count`,
`sync.manager.txs.<name>.seq2index.<decimal seq>` and
`sync.manager.txs.<name>.index2seq.<decimal slot>`, where the decimal
rendering reads back to the rendered number (and concretely at
`name = "foo"`). -/
theorem txStore_key_schema (name : String) (seq slot : Nat) :
    (TxStore.new name).key_count = "sync.manager.txs." ++ name ++ ".count" ∧
    (TxStore.new name).key_seq_to_index seq =
      "sync.manager.txs." ++ name ++ ".seq2index." ++ decRepr seq ∧
    (TxStore.new name).key_index_to_seq slot =
      "sync.manager.txs." ++ name ++ ".index2seq." ++ decRepr slot ∧
    decVal (decRepr seq).data = seq ∧
    decVal (decRepr slot).data = slot ∧
    (TxStore.new "foo").key_count = "sync.manager.txs.foo.count" ∧
    (TxStore.new "foo").key_seq_to_index 12 = "sync.manager.txs.foo.seq2index.12" ∧
    (TxStore.new "foo").key_index_to_seq 3 = "sync.manager.txs.foo.index2seq.3" :=
  ⟨rfl, rfl, rfl, decVal_decDigits seq, decVal_decDigits slot,
    by decide, by decide, by decide⟩

/-! ## CachedTxStore eviction lemmas -/

theorem chooseRandom_cons (a : Nat) (l : List Nat) (k : Nat) :
    chooseRandom (a :: l) k = (a :: l)[k % (a :: l).length]? := rfl

theorem chooseRandom_range_map (l : List Nat) (h : l ≠ []) :
    (List.range l.length).map (chooseRandom l) = l.map some := by
  cases l with
  | nil => exact absurd rfl h
  | cons a t =>
    apply List.ext_getElem?
    intro n
    rw [List.getElem?_map, List.getElem?_map]
    by_cases hn : n < (a :: t).length
    · rw [List.getElem?_range hn, List.getElem?_eq_getElem hn]
      rw [Option.map_some', Option.map_some', chooseRandom_cons,
        Nat.mod_eq_of_lt hn, List.getElem?_eq_getElem hn]
    · rw [List.getElem?_eq_none
          (show (List.range (a :: t).length).length ≤ n by rw [List.length_range]; omega),
        List.getElem?_eq_none (show (a :: t).length ≤ n by omega)]
      rfl

theorem cachedAdd_evict (name : String) (st : Store) (cache : List Nat)
    (cap seq k : Nat) (hcap : cap ≠ 0)
    (habs : (TxStore.new name).has st seq = false)
    (hmem : seq ∉ cache) (hlen : cache.length = cap) :
    ∃ victim, chooseRandom (seq :: cache) k = some victim ∧
      (CachedTxStore.new name cap).add st cache none seq k =
        (((TxStore.new name).add st none seq).1, none,
          (seq :: cache).erase victim, true) := by
  have hlen2 : (seq :: cache).length = cap + 1 := by simp [hlen]
  have hklt : k % (seq :: cache).length < (seq :: cache).length :=
    Nat.mod_lt _ (by omega)
  obtain ⟨v, hv⟩ : ∃ v, (seq :: cache)[k % (seq :: cache).length]? = some v :=
    ⟨_, List.getElem?_eq_getElem hklt⟩
  have hcr : chooseRandom (seq :: cache) k = some v := by
    rw [chooseRandom_cons]
    exact hv
  have hb : ((TxStore.new name).add st none seq).2.2 = true := by
    simp [TxStore.add, habs]
  have hdb : ((TxStore.new name).add st none seq).2.1 = none := by
    simp [TxStore.add, habs]
  refine ⟨v, hcr, ?_⟩
  rw [CachedTxStore.add]
  simp only [CachedTxStore.new]
  rw [if_neg hcap]
  simp only [hb, hdb, cacheInsert, if_neg hmem, hcr, eq_self_iff_true, if_true]
  rw [if_pos (show (seq :: cache).length > cap by rw [hlen2]; omega)]

/-- C2 counterexample: with `cache_cap = 1`, after `add 10` the cache is
`[10]`; `add 20` reports newly inserted and triggers an eviction whose
victim, for random seed `0`, is the newly inserted element `20` itself —
so the new element is *not* always still in the cache when `add` returns,
and the victim is not drawn only from the other elements. -/
theorem cachedTxStore_eviction_counterexample :
    ((CachedTxStore.new "foo" 1).add [] [] none 10 0).2.2.1 = [10] ∧
    ((CachedTxStore.new "foo" 1).add
      ((CachedTxStore.new "foo" 1).add [] [] none 10 0).1
      ((CachedTxStore.new "foo" 1).add [] [] none 10 0).2.2.1 none 20 0).2.2.2 = true ∧
    ((CachedTxStore.new "foo" 1).add
      ((CachedTxStore.new "foo" 1).add [] [] none 10 0).1
      ((CachedTxStore.new "foo" 1).add [] [] none 10 0).2.2.1 none 20 0).2.2.1 = [10] ∧
    20 ∉ ((CachedTxStore.new "foo" 1).add
      ((CachedTxStore.new "foo" 1).add [] [] none 10 0).1
      ((CachedTxStore.new "foo" 1).add [] [] none 10 0).2.2.1 none 20 0).2.2.1 := by
  decide

/-- C2 amended: when `add` on a `CachedTxStore` with `cache_cap > 0`
newly inserts an element and the insertion pushes the cache size above
`cache_cap`, the evicted victim is drawn uniformly at random from *all*
elements of the grown cache — including the newly inserted one, which may
therefore be evicted (seed `0` evicts it); each element is the victim for
exactly one seed in `[0, cache_cap + 1)`. -/
theorem cachedTxStore_eviction_uniform (name : String) (st : Store)
    (cache : List Nat) (cap seq k : Nat) (hcap : cap ≠ 0)
    (habs : (TxStore.new name).has st seq = false)
    (hmem : seq ∉ cache) (hnodup : cache.Nodup) (hlen : cache.length = cap) :
    ((CachedTxStore.new name cap).add st cache none seq k).2.2.2 = true ∧
    (seq :: cache).Nodup ∧
    (∃ victim, chooseRandom (seq :: cache) k = some victim ∧
      ((CachedTxStore.new name cap).add st cache none seq k).2.2.1 =
        (seq :: cache).erase victim) ∧
    (List.range ((seq :: cache).length)).map (chooseRandom (seq :: cache)) =
      (seq :: cache).map some ∧
    chooseRandom (seq :: cache) 0 = some seq := by
  obtain ⟨v, hcr, hadd⟩ := cachedAdd_evict name st cache cap seq k hcap habs hmem hlen
  refine ⟨by rw [hadd], by simp [hnodup, hmem], ⟨v, hcr, by rw [hadd]⟩,
    chooseRandom_range_map _ (by simp), ?_⟩
  rw [chooseRandom_cons, Nat.zero_mod, List.getElem?_cons_zero]

/-- C2 amended witness: cache `[10]` at capacity `1`, adding `20` with
seed `0`: every hypothesis holds concretely and the conclusion follows by
the theorem. -/
theorem cachedTxStore_eviction_uniform_witness :
    ((1 : Nat) ≠ 0) ∧ ((TxStore.new "foo").has [] 20 = false) ∧ (20 ∉ [10]) ∧
    ([10] : List Nat).Nodup ∧ ([10] : List Nat).length = 1 ∧
    (((CachedTxStore.new "foo" 1).add [] [10] none 20 0).2.2.2 = true ∧
      ([20, 10] : List Nat).Nodup ∧
      (∃ victim, chooseRandom [20, 10] 0 = some victim ∧
        ((CachedTxStore.new "foo" 1).add [] [10] none 20 0).2.2.1 =
          ([20, 10] : List Nat).erase victim) ∧
      (List.range 2).map (chooseRandom [20, 10]) = ([20, 10] : List Nat).map some ∧
      chooseRandom [20, 10] 0 = some 20) :=
  ⟨by decide, by decide, by decide, by decide, by decide,
    cachedTxStore_eviction_uniform "foo" [] [10] 1 20 0 (by decide) (by decide)
      (by decide) (by decide) (by decide)⟩

/-! ## LogQuery step lemmas -/

theorem pollNext_load_ok (q : LogQuery) (resume : Option Nat) (logs : List Nat)
    (rest : List Resp) (hstate : q.state = QState.loadLogs resume LogsSlot.awaitRpc) :
    pollNext q (Resp.logs (Except.ok logs) :: rest) =
      ({ q with current_logs := logs, page_size := q.expected_page_size,
                state := QState.consume }, rest, none, Poll1.pending) := by
  simp [pollNext, hstate]

theorem pollNext_load_overflow (q : LogQuery) (resume : Option Nat) (e : String)
    (rest : List Resp) (hstate : q.state = QState.loadLogs resume LogsSlot.awaitRpc)
    (hov : errIsTooManyLogs e = true) :
    pollNext q (Resp.logs (Except.error e) :: rest) =
      ({ q with from_block := resume, page_size := q.page_size / 2,
                state := QState.consume }, rest, none, Poll1.pending) := by
  simp [pollNext, hstate, hov]

theorem pollNext_load_fatal (q : LogQuery) (resume : Option Nat) (e : String)
    (rest : List Resp) (hstate : q.state = QState.loadLogs resume LogsSlot.awaitRpc)
    (hov : errIsTooManyLogs e = false) :
    pollNext q (Resp.logs (Except.error e) :: rest) =
      ({ q with state := QState.loadLogs resume LogsSlot.spent }, rest, none,
       Poll1.ready (some (PollItem.loadLogsError e))) := by
  simp [pollNext, hstate, hov]

theorem pollNext_spent_panics (q : LogQuery) (resume : Option Nat) (script : List Resp)
    (hstate : q.state = QState.loadLogs resume LogsSlot.spent) :
    pollNext q script = (q, script, none, Poll1.panic) := by
  simp [pollNext, hstate]

theorem run_after_spent (q : LogQuery) (resume : Option Nat)
    (hstate : q.state = QState.loadLogs resume LogsSlot.spent) (fuel : Nat)
    (script : List Resp) : (runQuery fuel q script).1 = [] := by
  cases fuel with
  | zero => rfl
  | succ n => simp [runQuery, pollNext_spent_panics q resume script hstate]

theorem pollNext_consume_page (q : LogQuery) (script : List Resp) (f tip : Nat)
    (hstate : q.state = QState.consume) (hcl : q.current_logs = [])
    (hpag : q.filter.is_paginatable = true) (hfb : q.from_block = some f)
    (hlb : q.last_block = some tip) (hle : f ≤ tip) (hps : 1 ≤ q.page_size)
    (hov1 : f + q.page_size < U64LIMIT) (hov2 : tip + 1 < U64LIMIT) :
    pollNext q script =
      ({ q with from_block := some (min (f + q.page_size - 1) tip + 1),
                state := QState.loadLogs (some f) LogsSlot.awaitRpc },
       script, some (Req.getLogs (some f) (some (min (f + q.page_size - 1) tip))),
       Poll1.pending) := by
  have hwe : pageWindowEnd f q.page_size = some (f + q.page_size - 1) := by
    rw [pageWindowEnd, u64add, if_pos hov1]
    show u64sub (f + q.page_size) 1 = _
    rw [u64sub, if_pos (by omega)]
  have hta : u64add (min (f + q.page_size - 1) tip) 1 =
      some (min (f + q.page_size - 1) tip + 1) := by
    have := min_le_right (f + q.page_size - 1) tip
    rw [u64add, if_pos (by omega)]
  simp [pollNext, hstate, hcl, hpag, hfb, hlb, hwe, hta,
    show ¬ (f > tip) from by omega]

theorem pollNext_page_size_cases (q : LogQuery) (script : List Resp) :
    ((pollNext q script).1.page_size = q.page_size ∨
     (pollNext q script).1.page_size = q.expected_page_size ∨
     (pollNext q script).1.page_size = q.page_size / 2) ∧
    (pollNext q script).1.expected_page_size = q.expected_page_size := by
  rcases q with ⟨f, fb, eps, ps, cl, lb, stt, d⟩
  cases stt with
  | initial =>
    by_cases hp : f.is_paginatable
    · cases htb : f.toBlock <;> simp [pollNext, hp, htb]
    · simp [pollNext, hp]
  | loadLastBlock slot =>
    cases slot with
    | pureVal n =>
      cases hfb : f.fromBlock with
      | none => simp [pollNext, hfb]
      | some from0 =>
        cases hwe : pageWindowEnd from0 ps with
        | none => simp [pollNext, hfb, hwe]
        | some w =>
          cases hta : u64add (min w n) 1 <;> simp [pollNext, hfb, hwe, hta]
    | awaitRpc =>
      cases script with
      | nil => simp [pollNext]
      | cons r rest =>
        cases r with
        | logs rr => simp [pollNext]
        | blockNum rr =>
          cases rr with
          | error e => simp [pollNext]
          | ok n =>
            cases hfb : f.fromBlock with
            | none => simp [pollNext, hfb]
            | some from0 =>
              cases hwe : pageWindowEnd from0 ps with
              | none => simp [pollNext, hfb, hwe]
              | some w =>
                cases hta : u64add (min w n) 1 <;> simp [pollNext, hfb, hwe, hta]
    | spent => simp [pollNext]
  | loadLogs resume slot =>
    cases slot with
    | spent => simp [pollNext]
    | awaitRpc =>
      cases script with
      | nil => simp [pollNext]
      | cons r rest =>
        cases r with
        | blockNum rr => simp [pollNext]
        | logs rr =>
          cases rr with
          | ok logs => simp [pollNext]
          | error e =>
            by_cases hov : errIsTooManyLogs e <;> simp [pollNext, hov]
  | consume =>
    cases cl with
    | cons l rest2 => simp [pollNext]
    | nil =>
      by_cases hp : f.is_paginatable
      · cases hfb : fb with
        | none => simp [pollNext, hp, hfb]
        | some from0 =>
          cases hlb : lb with
          | none =>
            cases hwe : pageWindowEnd from0 ps with
            | none => simp [pollNext, hp, hfb, hlb, hwe]
            | some w => simp [pollNext, hp, hfb, hlb, hwe]
          | some tip =>
            cases hwe : pageWindowEnd from0 ps with
            | none => simp [pollNext, hp, hfb, hlb, hwe]
            | some w =>
              by_cases hgt : from0 > tip
              · simp [pollNext, hp, hfb, hlb, hwe, hgt]
              · cases hta : u64add (min w tip) 1 <;>
                  simp [pollNext, hp, hfb, hlb, hwe, hgt, hta]
      · simp [pollNext, hp]

/-- C3 counterexample: with `with_page_size 1` on the range `[0, 100]`, the
first page request `[0, 0]` failing with an overflow-classified error
halves `page_size` to `0`, violating `1 ≤ page_size` while
`expected_page_size = 1`; so an overflow-triggered halving does not leave
`page_size` at least `1`. -/
theorem logQuery_page_size_floor_counterexample :
    (pollNext (pollNext (pollNext
        ((LogQuery.new { fromBlock := some 0, toBlock := some 100 } 0).with_page_size 1)
        []).1 []).1
      [Resp.logs (Except.error "query exceeds the max limit of 10000 results")]).1.page_size
      = 0 ∧
    (pollNext (pollNext (pollNext
        ((LogQuery.new { fromBlock := some 0, toBlock := some 100 } 0).with_page_size 1)
        []).1 []).1
      [Resp.logs (Except.error "query exceeds the max limit of 10000 results")]).1.expected_page_size
      = 1 ∧
    (pollNext (pollNext (pollNext
        ((LogQuery.new { fromBlock := some 0, toBlock := some 100 } 0).with_page_size 1)
        []).1 []).1
      [Resp.logs (Except.error "query exceeds the max limit of 10000 results")]).2.2.2
      = Poll1.pending := by
  decide

/-- C3 amended: `page_size ≤ expected_page_size` is preserved by every
`poll_next` step (so it holds at every observable point of a run started
with `with_page_size`, where the two are equal), and `expected_page_size`
never changes; a successful page load restores `page_size` to
`expected_page_size`; but an overflow-triggered halving sets `page_size`
to `⌊page_size / 2⌋`, which has no floor of `1` — from `page_size = 1` it
reaches `0`. -/
theorem logQuery_page_size_bounds (q : LogQuery) (script : List Resp)
    (h : q.page_size ≤ q.expected_page_size) :
    (pollNext q script).1.page_size ≤ (pollNext q script).1.expected_page_size ∧
    (pollNext q script).1.expected_page_size = q.expected_page_size ∧
    (∀ resume logs rest, q.state = QState.loadLogs resume LogsSlot.awaitRpc →
      script = Resp.logs (Except.ok logs) :: rest →
      (pollNext q script).1.page_size = q.expected_page_size) ∧
    (∀ resume e rest, q.state = QState.loadLogs resume LogsSlot.awaitRpc →
      script = Resp.logs (Except.error e) :: rest → errIsTooManyLogs e = true →
      (pollNext q script).1.page_size = q.page_size / 2) := by
  obtain ⟨hc, he⟩ := pollNext_page_size_cases q script
  refine ⟨?_, he, ?_, ?_⟩
  · rcases hc with h1 | h1 | h1 <;> rw [h1, he] <;>
      first
        | exact h
        | exact le_trans (Nat.div_le_self _ _) h
  · intro resume logs rest hstate hscr
    rw [hscr, pollNext_load_ok q resume logs rest hstate]
  · intro resume e rest hstate hscr hov
    rw [hscr, pollNext_load_overflow q resume e rest hstate hov]

/-- C3 amended witness: the bound instantiated at a fresh query (both page
sizes `10000`) polled once. -/
theorem logQuery_page_size_bounds_witness :
    (LogQuery.new { fromBlock := some 0, toBlock := some 9 } 0).page_size ≤
      (LogQuery.new { fromBlock := some 0, toBlock := some 9 } 0).expected_page_size ∧
    (pollNext (LogQuery.new { fromBlock := some 0, toBlock := some 9 } 0) []).1.page_size ≤
      (pollNext (LogQuery.new { fromBlock := some 0, toBlock := some 9 } 0) []).1.expected_page_size :=
  ⟨by decide,
    (logQuery_page_size_bounds (LogQuery.new { fromBlock := some 0, toBlock := some 9 } 0)
      [] (by decide)).1⟩

/-- C4: a `get_logs` failure is consumed internally (no item emitted, the
machine moves on to re-issue a narrower page) iff its display string
contains `"exceeds the max limit of"` or `"too large with more than"`;
any other failure is emitted as `LoadLogsError`, and afterwards no item —
in particular no log record — is ever emitted again, for any fuel and any
further provider responses. -/
theorem logQuery_error_classification (q : LogQuery) (resume : Option Nat)
    (e : String) (rest : List Resp)
    (hpag : q.filter.is_paginatable = true)
    (hstate : q.state = QState.loadLogs resume LogsSlot.awaitRpc) :
    (errIsTooManyLogs e = (strContains e "exceeds the max limit of" ||
      strContains e "too large with more than")) ∧
    (errIsTooManyLogs e = true →
      (pollNext q (Resp.logs (Except.error e) :: rest)).2.2.2 = Poll1.pending ∧
      (pollNext q (Resp.logs (Except.error e) :: rest)).1.state = QState.consume) ∧
    (errIsTooManyLogs e = false →
      (pollNext q (Resp.logs (Except.error e) :: rest)).2.2.2 =
        Poll1.ready (some (PollItem.loadLogsError e)) ∧
      ∀ fuel script2,
        (runQuery fuel (pollNext q (Resp.logs (Except.error e) :: rest)).1 script2).1 = []) := by
  refine ⟨?_, fun hov => ?_, fun hov => ?_⟩
  · simp [errIsTooManyLogs, TOO_MANY_LOGS_ERROR_MSG]
  · rw [pollNext_load_overflow q resume e rest hstate hov]
    exact ⟨rfl, rfl⟩
  · rw [pollNext_load_fatal q resume e rest hstate hov]
    exact ⟨rfl, fun fuel script2 => run_after_spent _ resume rfl fuel script2⟩

/-- C4 witness: classification exercised both ways on the concrete
in-flight page of `sampleLoadingQuery`: an overflow-hint error yields a
silent `pending` retry, and `"connection refused"` is emitted as
`LoadLogsError`. -/
theorem logQuery_error_classification_witness :
    sampleLoadingQuery.filter.is_paginatable = true ∧
    errIsTooManyLogs "block range exceeds the max limit of 10000" = true ∧
    errIsTooManyLogs "connection refused" = false ∧
    (pollNext sampleLoadingQuery
      (Resp.logs (Except.error "block range exceeds the max limit of 10000") :: [])).2.2.2 =
      Poll1.pending ∧
    (pollNext sampleLoadingQuery
      (Resp.logs (Except.error "connection refused") :: [])).2.2.2 =
      Poll1.ready (some (PollItem.loadLogsError "connection refused")) :=
  ⟨by decide, by decide, by decide,
    ((logQuery_error_classification sampleLoadingQuery (some 0)
      "block range exceeds the max limit of 10000" [] (by decide) rfl).2.1
      (by decide)).1,
    ((logQuery_error_classification sampleLoadingQuery (some 0) "connection refused" []
      (by decide) rfl).2.2 (by decide)).1⟩

/-- C5: in the `Consume` state with the page buffer drained, a paginatable
query with cursor `from` and resolved tip requests exactly the window
`[from, min(from + page_size - 1, tip)]` and advances `from_block` to
`to + 1` while the `get_logs` future is still pending; and on an
overflow-classified error the cursor is rewound to the page's original
`from` (the resume value stored beside the future). -/
theorem logQuery_page_window (q : LogQuery) (script : List Resp) (f tip : Nat)
    (hstate : q.state = QState.consume) (hcl : q.current_logs = [])
    (hpag : q.filter.is_paginatable = true) (hfb : q.from_block = some f)
    (hlb : q.last_block = some tip) (hle : f ≤ tip) (hps : 1 ≤ q.page_size)
    (hov1 : f + q.page_size < U64LIMIT) (hov2 : tip + 1 < U64LIMIT) :
    (pollNext q script).2.2.1 =
      some (Req.getLogs (some f) (some (min (f + q.page_size - 1) tip))) ∧
    (pollNext q script).1.from_block = some (min (f + q.page_size - 1) tip + 1) ∧
    (pollNext q script).1.state = QState.loadLogs (some f) LogsSlot.awaitRpc ∧
    (pollNext q script).2.2.2 = Poll1.pending ∧
    (∀ (q2 : LogQuery) (resume : Option Nat) (e : String) (rest : List Resp),
      q2.state = QState.loadLogs resume LogsSlot.awaitRpc →
      errIsTooManyLogs e = true →
      (pollNext q2 (Resp.logs (Except.error e) :: rest)).1.from_block = resume) := by
  rw [pollNext_consume_page q script f tip hstate hcl hpag hfb hlb hle hps hov1 hov2]
  refine ⟨rfl, rfl, rfl, rfl, fun q2 resume e rest hs2 hov => ?_⟩
  rw [pollNext_load_overflow q2 resume e rest hs2 hov]

/-- C5 witness: `sampleConsumeQuery` (range `[0, 100]`, cursor `0`,
`page_size = 10`) requests `[0, 9]` and advances the cursor to `10`; the
rewind clause is exercised on `sampleLoadingQuery` with a concrete
overflow error, restoring the cursor to `0`. -/
theorem logQuery_page_window_witness :
    (pollNext sampleConsumeQuery []).2.2.1 =
      some (Req.getLogs (some 0) (some (min (0 + sampleConsumeQuery.page_size - 1) 100))) ∧
    (pollNext sampleConsumeQuery []).1.from_block =
      some (min (0 + sampleConsumeQuery.page_size - 1) 100 + 1) ∧
    (pollNext sampleLoadingQuery
      (Resp.logs (Except.error "block range exceeds the max limit of 10000") :: [])).1.from_block
      = some 0 :=
  ⟨(logQuery_page_window sampleConsumeQuery [] 0 100 rfl rfl (by decide) rfl rfl
      (by decide) (by decide) (by decide) (by decide)).1,
   (logQuery_page_window sampleConsumeQuery [] 0 100 rfl rfl (by decide) rfl rfl
      (by decide) (by decide) (by decide) (by decide)).2.1,
   (logQuery_page_window sampleConsumeQuery [] 0 100 rfl rfl (by decide) rfl rfl
      (by decide) (by decide) (by decide) (by decide)).2.2.2.2 sampleLoadingQuery (some 0)
      "block range exceeds the max limit of 10000" [] rfl (by decide)⟩

/-- C8: over a non-paginatable filter (no from-block), a single `get_logs`
failure carrying an overflow hint terminates the stream as a normal
end-of-sequence: the consumer receives no error and no log record, exactly
one request is ever issued (no retry), and the run ends cleanly. -/
theorem logQuery_nonpaginatable_overflow_ends (f : LogFilter) (d : Nat) (e : String)
    (hnp : f.fromBlock = none) (hov : errIsTooManyLogs e = true)
    (fuel : Nat) (hf : 3 ≤ fuel) :
    runQuery fuel (LogQuery.new f d) [Resp.logs (Except.error e)] =
      ([], [Req.getLogs f.fromBlock f.toBlock], RunEnd.done) := by
  obtain ⟨m, rfl⟩ : ∃ m, fuel = m + 3 := ⟨fuel - 3, by omega⟩
  simp [runQuery, pollNext, LogQuery.new, LogFilter.is_paginatable, hnp, hov]

/-- C8 witness: a concrete non-paginatable filter and overflow error with
fuel `10`. -/
theorem logQuery_nonpaginatable_overflow_ends_witness :
    ({ fromBlock := none, toBlock := none } : LogFilter).fromBlock = none ∧
    errIsTooManyLogs "result set too large with more than 10000 logs" = true ∧
    runQuery 10 (LogQuery.new { fromBlock := none, toBlock := none } 0)
      [Resp.logs (Except.error "result set too large with more than 10000 logs")] =
      ([], [Req.getLogs none none], RunEnd.done) :=
  ⟨rfl, by decide,
    logQuery_nonpaginatable_overflow_ends { fromBlock := none, toBlock := none } 0
      "result set too large with more than 10000 logs" rfl (by decide) 10 (by decide)⟩

/-- C10: `poll_next` is not total. `with_page_size 0` sets `page_size = 0`
directly; the overflow halving has no floor, so `page_size = 1` becomes
`0`; and in the `Consume` state with `from_block = 0` and `page_size = 0`
the window computation `from_block + page_size - 1` underflows the
unsigned 64-bit subtraction and panics. -/
theorem logQuery_page_size_zero_underflow_panic (q : LogQuery) (script : List Resp)
    (hstate : q.state = QState.consume) (hcl : q.current_logs = [])
    (hpag : q.filter.is_paginatable = true) (hfb : q.from_block = some 0)
    (hps : q.page_size = 0) :
    (∀ (f2 : LogFilter) (d2 : Nat),
      ((LogQuery.new f2 d2).with_page_size 0).page_size = 0 ∧
      ((LogQuery.new f2 d2).with_page_size 0).expected_page_size = 0) ∧
    (∀ (q2 : LogQuery) (resume : Option Nat) (e : String) (rest : List Resp),
      q2.state = QState.loadLogs resume LogsSlot.awaitRpc → q2.page_size = 1 →
      errIsTooManyLogs e = true →
      (pollNext q2 (Resp.logs (Except.error e) :: rest)).1.page_size = 0) ∧
    pageWindowEnd 0 q.page_size = none ∧
    pollNext q script = (q, script, none, Poll1.panic) := by
  have hwe : pageWindowEnd 0 0 = none := by decide
  refine ⟨fun f2 d2 => ⟨rfl, rfl⟩, fun q2 resume e rest hs2 hps2 hov => ?_, ?_, ?_⟩
  · rw [pollNext_load_overflow q2 resume e rest hs2 hov, hps2]
  · rw [hps]; exact hwe
  · cases hlb : q.last_block with
    | none => simp [pollNext, hstate, hcl, hpag, hfb, hlb, hps, hwe]
    | some tip => simp [pollNext, hstate, hcl, hpag, hfb, hlb, hps, hwe]

/-- C10 witness: `samplePageSizeZeroQuery` (cursor `0`, `page_size = 0`)
panics on the underflowing window computation. -/
theorem logQuery_page_size_zero_underflow_panic_witness :
    samplePageSizeZeroQuery.page_size = 0 ∧
    samplePageSizeZeroQuery.from_block = some 0 ∧
    pollNext samplePageSizeZeroQuery [] =
      (samplePageSizeZeroQuery, [], none, Poll1.panic) :=
  ⟨rfl, rfl,
    (logQuery_page_size_zero_underflow_panic samplePageSizeZeroQuery [] rfl rfl
      (by decide) rfl rfl).2.2.2⟩
